import Mathlib

/-!
Shallow embedding of the strategy decision engine of the `free_trading`
repository: the condition-chain engine (`src/logical/strategy/base.py`),
the RSI scale-in strategy (`src/logical/strategy/rsi_scale_in/
rsi_scale_in_strategy.py`) and the live-execution validator
(`src/logical/strategy/validators.py`).  Python floats and Decimals are
embedded as rationals with exact arithmetic; a possibly-NaN float is
`Option ℚ` with `none` for NaN (comparisons against NaN are false, as in
Python).  The data model (`Signal`, `Position`, `Direction`) and the risk
sizing oracle live in modules that are not part of the analysed sources;
they are modelled from the specification, as marked on each definition.
-/

namespace FreeTrading

/-- Modelled from the spec: trade direction enum (`src.trading_engine.core.enums`
is not among the sources); the core uses only LONG and SHORT. -/
inductive Direction where
  | LONG
  | SHORT
deriving DecidableEq

/-- Modelled from the spec: signal type enum (`src.trading_engine.core.enums`
is not among the sources). -/
inductive SignalType where
  | NO_SIGNAL
  | ENTRY
  | CLOSE
deriving DecidableEq

/-- Modelled from the spec: order type enum; the core only inspects whether
an order's type is ENTRY. -/
inductive OrderType where
  | ENTRY
  | EXIT
deriving DecidableEq

/-- Modelled from the spec: an order attached to a position; the core reads
only its type. -/
structure Order where
  type : OrderType
deriving DecidableEq

/-- Modelled from the spec: position status enum. -/
inductive PositionStatus where
  | PENDING
  | ACTIVE
  | CLOSED
deriving DecidableEq

/-- Modelled from the spec: an open position
(`src.trading_engine.core.position` is not among the sources):
symbol, direction, tick size, owning strategy id, status and the ordered
list of attached orders. -/
structure Position where
  symbol : String
  direction : Direction
  tick_size : ℚ
  source : String
  status : PositionStatus
  orders : List Order
deriving DecidableEq

/-- Snapshot of the live-trading flags that `BaseStrategy.run` stamps into
the signal metadata. -/
structure LiveFlagsMeta where
  live_enabled : Bool
  dry_run : Bool
  max_risk_fraction : ℚ
  max_notional : Option ℚ
deriving DecidableEq

/-- A metadata value: the code stores floats, ints, strings and the
live-flags sub-dictionary. -/
inductive MetaVal where
  | num : ℚ → MetaVal
  | nat : ℕ → MetaVal
  | str : String → MetaVal
  | live : LiveFlagsMeta → MetaVal
deriving DecidableEq

/-- The open key-value metadata bag of a signal. -/
abbrev Metadata := List (String × MetaVal)

/-- A take-profit / stop-loss level. -/
structure TPLevel where
  price : ℚ
  volume : ℚ
deriving DecidableEq

/-- Modelled from the spec: the `Signal` record
(`src.trading_engine.core.signal` is not among the sources): signal type,
direction, entry price, volume, take-profit and stop-loss ladders, owning
strategy id and metadata.  Direction/price are `none` for NO_SIGNAL. -/
structure Signal where
  signal_type : SignalType
  direction : Option Direction
  price : Option ℚ
  volume : Option ℚ
  take_profits : List TPLevel
  stop_losses : List TPLevel
  source : String
  metadata : Metadata
deriving DecidableEq

/-- Modelled from the spec: `Signal.no_signal(source)` constructor. -/
def Signal.no_signal (source : String) : Signal :=
  ⟨SignalType.NO_SIGNAL, none, none, none, [], [], source, []⟩

/-- Modelled from the spec: `Signal.close(source, metadata)` constructor;
the RSI strategy calls it without direction, price or volume. -/
def Signal.close (source : String) (metadata : Metadata) : Signal :=
  ⟨SignalType.CLOSE, none, none, none, [], [], source, metadata⟩

/-- Modelled from the spec: `Signal.entry(...)` constructor. -/
def Signal.entry (direction : Direction) (entry_price volume : ℚ)
    (take_profits stop_losses : List TPLevel) (source : String)
    (metadata : Metadata) : Signal :=
  ⟨SignalType.ENTRY, some direction, some entry_price, some volume,
    take_profits, stop_losses, source, metadata⟩

/-- Look a key up in a signal's metadata. -/
def Signal.metaLookup (s : Signal) (k : String) : Option MetaVal :=
  s.metadata.lookup k

/-- One OHLC bar of the price window. -/
structure Bar where
  op : ℚ
  hi : ℚ
  lo : ℚ
  close : ℚ
deriving DecidableEq

/-! ## Crossing detector and RSI computation
(`rsi_scale_in_strategy.py`, `calculate_rsi` / `detect_rsi_cross`). -/

/-- Comparison `x > level` under float semantics: false when `x` is NaN (`none`). -/
def nanGt (x : Option ℚ) (level : ℚ) : Bool :=
  match x with
  | some v => decide (level < v)
  | none => false

/-- Comparison `x ≤ level` under float semantics: false when `x` is NaN. -/
def nanLe (x : Option ℚ) (level : ℚ) : Bool :=
  match x with
  | some v => decide (v ≤ level)
  | none => false

/-- Comparison `x < level` under float semantics: false when `x` is NaN. -/
def nanLt (x : Option ℚ) (level : ℚ) : Bool :=
  match x with
  | some v => decide (v < level)
  | none => false

/-- Comparison `x ≥ level` under float semantics: false when `x` is NaN. -/
def nanGe (x : Option ℚ) (level : ℚ) : Bool :=
  match x with
  | some v => decide (level ≤ v)
  | none => false

/-- Element `series.iloc[-1]` of a possibly-NaN series. -/
def lastVal (rsi : List (Option ℚ)) : Option ℚ :=
  rsi.getLast?.join

/-- Element `series.iloc[-2]` of a possibly-NaN series. -/
def prevVal (rsi : List (Option ℚ)) : Option ℚ :=
  rsi.dropLast.getLast?.join

/-- Embeds `RSIScaleInStrategy.detect_rsi_cross(rsi, level, direction)`: with fewer
than two samples false; "down": previous > level and current ≤ level;
"up": previous < level and current ≥ level; anything else false. -/
def detect_rsi_cross (rsi : List (Option ℚ)) (level : ℚ) (direction : String) : Bool :=
  if rsi.length < 2 then false
  else
    let current_rsi := lastVal rsi
    let previous_rsi := prevVal rsi
    if direction = "down" then nanGt previous_rsi level && nanLe current_rsi level
    else if direction = "up" then nanLt previous_rsi level && nanGe current_rsi level
    else false

/-- Successive differences of a series (`close.diff()` without its leading
NaN element). -/
def diffs : List ℚ → List ℚ
  | [] => []
  | [_] => []
  | a :: b :: rest => (b - a) :: diffs (b :: rest)

/-- Computes `delta.where(delta > 0, 0)`: the positive deltas, the leading NaN of
`diff` becoming 0 (NaN > 0 is false). -/
def gainsOf (closes : List ℚ) : List ℚ :=
  match closes with
  | [] => []
  | _ :: _ => 0 :: (diffs closes).map (fun d => if 0 < d then d else 0)

/-- Computes `-delta.where(delta < 0, 0)`: the negated negative deltas, the leading
NaN of `diff` becoming 0. -/
def lossesOf (closes : List ℚ) : List ℚ :=
  match closes with
  | [] => []
  | _ :: _ => 0 :: (diffs closes).map (fun d => if d < 0 then -d else 0)

/-- Tail of `ewm(span, adjust=False).mean()`:
`y_t = (1 - alpha) * y_(t-1) + alpha * x_t`. -/
def ewmFrom (alpha y : ℚ) : List ℚ → List ℚ
  | [] => []
  | x :: xs =>
    let y' := (1 - alpha) * y + alpha * x
    y' :: ewmFrom alpha y' xs

/-- Embeds `ewm(span, adjust=False).mean()` with `alpha = 2 / (span + 1)`:
the first output equals the first input. -/
def ewm (alpha : ℚ) : List ℚ → List ℚ
  | [] => []
  | x :: xs => x :: ewmFrom alpha x xs

/-- Formula `rsi = 100 - 100 / (1 + avg_gain / avg_loss)` under float semantics on
nonnegative averages: loss 0 and gain 0 give NaN (0/0), loss 0 and gain
positive give 100 (the ratio is +inf), otherwise the finite formula. -/
def rsiPoint (g l : ℚ) : Option ℚ :=
  if l = 0 then (if g = 0 then none else some 100)
  else some (100 - 100 / (1 + g / l))

/-- Embeds `RSIScaleInStrategy.calculate_rsi(data, period)` on the close series:
exponential smoothing of gains and losses with `span = period`,
`adjust=False`, then the RSI formula pointwise. -/
def calculate_rsi (closes : List ℚ) (period : ℕ) : List (Option ℚ) :=
  let alpha : ℚ := 2 / ((period : ℚ) + 1)
  (List.zip (ewm alpha (gainsOf closes)) (ewm alpha (lossesOf closes))).map
    (fun p => rsiPoint p.1 p.2)

/-! ## RSI scale-in strategy state machine (`rsi_scale_in_strategy.py`). -/

/-- The per-instance configuration of `RSIScaleInStrategy`, read once from
the external configuration at construction. -/
structure RSIConfig where
  name : String
  rsi_period : ℕ
  long_entry_level : ℚ
  long_scale_levels : List ℚ
  short_entry_level : ℚ
  short_scale_levels : List ℚ
  max_scale_ins : ℕ
  allowed_min_bars : ℕ
deriving DecidableEq

/-- Number of ENTRY orders attached to a position. -/
def countEntryOrders (pos : Position) : ℕ :=
  pos.orders.countP (fun o => o.type = OrderType.ENTRY)

/-- Embeds `RSIScaleInStrategy.get_position_scale_count(positions)`: for the first
position whose source is this strategy, `max(0, entry_order_count - 1)`
(truncated subtraction on ℕ is exactly that); 0 when none matches. -/
def get_position_scale_count (name : String) (positions : List Position) : ℕ :=
  match positions.find? (fun p => p.source == name) with
  | some pos => countEntryOrders pos - 1
  | none => 0

/-- The per-position close test inside `should_close_position`: a LONG
position closes on an "up" crossing of the short-entry level, a SHORT
position on a "down" crossing of the long-entry level. -/
def closeCheck (cfg : RSIConfig) (rsi : List (Option ℚ)) (pos : Position) : Bool :=
  match pos.direction with
  | Direction.LONG => detect_rsi_cross rsi cfg.short_entry_level "up"
  | Direction.SHORT => detect_rsi_cross rsi cfg.long_entry_level "down"

/-- Embeds `RSIScaleInStrategy.should_close_position(positions, rsi)`. -/
def should_close_position (cfg : RSIConfig) (positions : List Position)
    (rsi : List (Option ℚ)) : Bool :=
  if positions.isEmpty then false
  else if rsi.length < 2 then false
  else positions.any (fun pos => pos.source == cfg.name && closeCheck cfg rsi pos)

/-- The scale-in ENTRY signal built in `run`: volume is the base risk-sized
volume times `2 ^ (scale_count + 1)`, metadata records the oscillator
value, `scale_count + 1` and the multiplier. -/
def mkScaleInSignal (cfg : RSIConfig) (direction : Direction)
    (current_rsi entry_price base_volume : ℚ) (scale_count : ℕ) : Signal :=
  let multiplier : ℕ := 2 ^ (scale_count + 1)
  Signal.entry direction entry_price (base_volume * (multiplier : ℚ)) [] [] cfg.name
    [("rsi", MetaVal.num current_rsi),
     ("scale_count", MetaVal.nat (scale_count + 1)),
     ("entry_type", MetaVal.str "scale_in"),
     ("multiplier", MetaVal.nat multiplier)]

/-- The scale-in loop of `run`: walk the positions; for the first position
of this strategy whose direction's ladder has a level at `scale_count`
that the RSI crossed (down for LONG, up for SHORT), emit the scale-in
ENTRY; positions of other strategies and non-crossing positions are
skipped. -/
def scaleInSearch (cfg : RSIConfig) (sizer : ℚ → ℚ) (rsi : List (Option ℚ))
    (current_rsi entry_price : ℚ) (scale_count : ℕ) :
    List Position → Option Signal
  | [] => none
  | pos :: rest =>
    if pos.source ≠ cfg.name then
      scaleInSearch cfg sizer rsi current_rsi entry_price scale_count rest
    else
      match pos.direction with
      | Direction.LONG =>
        match cfg.long_scale_levels[scale_count]? with
        | some scale_level =>
          if detect_rsi_cross rsi scale_level "down" then
            some (mkScaleInSignal cfg Direction.LONG current_rsi entry_price
              (sizer entry_price) scale_count)
          else scaleInSearch cfg sizer rsi current_rsi entry_price scale_count rest
        | none => scaleInSearch cfg sizer rsi current_rsi entry_price scale_count rest
      | Direction.SHORT =>
        match cfg.short_scale_levels[scale_count]? with
        | some scale_level =>
          if detect_rsi_cross rsi scale_level "up" then
            some (mkScaleInSignal cfg Direction.SHORT current_rsi entry_price
              (sizer entry_price) scale_count)
          else scaleInSearch cfg sizer rsi current_rsi entry_price scale_count rest
        | none => scaleInSearch cfg sizer rsi current_rsi entry_price scale_count rest

/-- The initial-entry block of `run`, reached when
`not positions or scale_count == 0`: a "down" crossing of the long entry
level opens LONG, else an "up" crossing of the short entry level opens
SHORT; volume is the base risk-sized volume, metadata records the
oscillator value, scale count 0 and entry type "initial". -/
def initialEntryCheck (cfg : RSIConfig) (sizer : ℚ → ℚ) (rsi : List (Option ℚ))
    (current_rsi entry_price : ℚ) : Option Signal :=
  if detect_rsi_cross rsi cfg.long_entry_level "down" then
    some (Signal.entry Direction.LONG entry_price (sizer entry_price) [] [] cfg.name
      [("rsi", MetaVal.num current_rsi),
       ("scale_count", MetaVal.nat 0),
       ("entry_type", MetaVal.str "initial")])
  else if detect_rsi_cross rsi cfg.short_entry_level "up" then
    some (Signal.entry Direction.SHORT entry_price (sizer entry_price) [] [] cfg.name
      [("rsi", MetaVal.num current_rsi),
       ("scale_count", MetaVal.nat 0),
       ("entry_type", MetaVal.str "initial")])
  else none

/-- Embeds `RSIScaleInStrategy.run(data, positions, trading_context)` on an
already-normalized price window.  `calc` is the opaque risk-sizing oracle
`RiskManager.calculate_position_size` (its module is not among the
sources; the spec declares it a pure function of the entry price).
Too few bars, an empty window (the price/RSI extraction exceptions) or a
NaN current RSI short-circuit to NO_SIGNAL; then the close check, the
initial-entry block guarded by `not positions or scale_count == 0`, the
scale-in loop guarded by `positions and scale_count < max_scale_ins`, and
finally NO_SIGNAL. -/
def run (cfg : RSIConfig) (sizer : ℚ → ℚ) (data : List Bar)
    (positions : List Position) : Signal :=
  if data.length < cfg.allowed_min_bars then Signal.no_signal cfg.name
  else
    let closes := data.map Bar.close
    let rsi := calculate_rsi closes cfg.rsi_period
    match rsi.getLast? with
    | none => Signal.no_signal cfg.name
    | some none => Signal.no_signal cfg.name
    | some (some current_rsi) =>
      match closes.getLast? with
      | none => Signal.no_signal cfg.name
      | some entry_price =>
        if !positions.isEmpty && should_close_position cfg positions rsi then
          Signal.close cfg.name [("rsi", MetaVal.num current_rsi)]
        else
          let scale_count := get_position_scale_count cfg.name positions
          match (if positions.isEmpty || scale_count == 0 then
                   initialEntryCheck cfg sizer rsi current_rsi entry_price
                 else none) with
          | some s => s
          | none =>
            if !positions.isEmpty && decide (scale_count < cfg.max_scale_ins) then
              match scaleInSearch cfg sizer rsi current_rsi entry_price scale_count positions with
              | some s => s
              | none => Signal.no_signal cfg.name
            else Signal.no_signal cfg.name

/-! ## Condition-chain engine (`base.py`). -/

/-- The live-trading parameters held on a `BaseStrategy` instance. -/
structure LiveParams where
  live_enabled : Bool
  dry_run : Bool
  max_risk_fraction : ℚ
  max_notional : Option ℚ
  allowed_symbols : Option (List String)
deriving DecidableEq

/-- The trading context dictionary: the keys the core reads, each `none`
when absent (or None). -/
structure TradingContext where
  symbol : Option String
  available_balance : Option ℚ
  balance : Option ℚ
deriving DecidableEq

/-- The mutable context dictionary threaded through the condition chain:
seeded with the positions and the optional trading context; conditions may
stage volume, take-profit/stop-loss lists, direction and metadata
(`none` models an absent key). -/
structure Ctx where
  positions : List Position
  trading_context : Option TradingContext
  volume : Option ℚ
  take_profits : Option (List TPLevel)
  stop_losses : Option (List TPLevel)
  direction : Option Direction
  metadata : Option Metadata
deriving DecidableEq

/-- Outcome of calling one condition: it raises, or returns a value of
the given truthiness together with the (possibly mutated) context. -/
inductive CondResult where
  | raises : CondResult
  | returns : Bool → Ctx → CondResult

/-- A condition: a function of the price window and the mutable context. -/
abbrev Condition := List Bar → Ctx → CondResult

/-- The context `BaseStrategy.run` seeds before the loop. -/
def initCtx (positions : List Position) (trading_context : Option TradingContext) : Ctx :=
  ⟨positions, trading_context, none, none, none, none, none⟩

/-- The condition loop of `BaseStrategy.run`: evaluate in insertion order,
stop with failure (`none`) at the first condition that raises or returns a
falsy value, otherwise thread the updated context through. -/
def evalConds (df : List Bar) : List Condition → Ctx → Option Ctx
  | [], ctx => some ctx
  | cond :: rest, ctx =>
    match cond df ctx with
    | CondResult.raises => none
    | CondResult.returns ok ctx' =>
      if ok then evalConds df rest ctx' else none

/-- The `strategy_live` metadata stamp at the end of `BaseStrategy.run`:
`setdefault` then `update` amounts to setting the key to the flag
snapshot (appended at the end when absent). -/
def stampLive (md : Metadata) (p : LiveParams) : Metadata :=
  let entry : String × MetaVal :=
    ("strategy_live",
      MetaVal.live ⟨p.live_enabled, p.dry_run, p.max_risk_fraction, p.max_notional⟩)
  match md.lookup "strategy_live" with
  | some _ => md.map (fun kv => if kv.1 == "strategy_live" then entry else kv)
  | none => md ++ [entry]

/-- Embeds `BaseStrategy.run(data, positions, trading_context)` on an
already-normalized price window: seed the context, evaluate the chain
(any fault or falsy condition degrades to NO_SIGNAL), then build an ENTRY
at the last close with the staged values (`or`-defaults: volume 0, empty
ladders, direction LONG, empty metadata) and stamp the live flags; an
empty window makes the close extraction fail, degrading to NO_SIGNAL. -/
def base_run (name : String) (p : LiveParams) (conditions : List Condition)
    (df : List Bar) (positions : List Position)
    (trading_context : Option TradingContext) : Signal :=
  match evalConds df conditions (initCtx positions trading_context) with
  | none => Signal.no_signal name
  | some ctx =>
    match (df.map Bar.close).getLast? with
    | none => Signal.no_signal name
    | some entry_price =>
      Signal.entry (ctx.direction.getD Direction.LONG) entry_price
        (ctx.volume.getD 0) (ctx.take_profits.getD []) (ctx.stop_losses.getD [])
        name (stampLive (ctx.metadata.getD []) p)

/-! ## Live-execution validator (`validators.py`). -/

/-- Embeds `trading_context.get('available_balance') or trading_context.get('balance')`:
a falsy (zero or absent) available balance falls back to the balance key;
the result of the `or` is returned whatever its truthiness. -/
def effBalance (c : TradingContext) : Option ℚ :=
  match c.available_balance with
  | some a => if a = 0 then c.balance else some a
  | none => c.balance

/-- The symbol-whitelist check of `can_execute`: `some sym` is the rejected
symbol when a whitelist is configured, the context names a symbol and it
is not in the whitelist; `none` otherwise. -/
def symbolReject (strategy : LiveParams) (trading_context : Option TradingContext) :
    Option String :=
  match strategy.allowed_symbols, trading_context.bind (fun c => c.symbol) with
  | some allowed, some sym => if sym ∈ allowed then none else some sym
  | _, _ => none

/-- Embeds `validators.can_execute(strategy, signal, positions, trading_context)`:
checks in order live_enabled, dry_run, symbol whitelist, then (when a
balance, a price and a volume are all present) the absolute notional cap
before the relative risk-fraction cap; otherwise (True, 'ok'). -/
def can_execute (strategy : LiveParams) (signal : Signal)
    (positions : List Position) (trading_context : Option TradingContext) :
    Bool × String :=
  if !strategy.live_enabled then (false, "strategy_live_disabled")
  else if strategy.dry_run then (false, "dry_run_enabled")
  else
    match symbolReject strategy trading_context with
    | some sym => (false, "symbol_not_allowed:" ++ sym)
    | none =>
      match trading_context with
      | none => (true, "ok")
      | some c =>
        match effBalance c, signal.price, signal.volume with
        | some bal, some price, some volume =>
          let notional := price * volume
          if (match strategy.max_notional with
              | some mn => decide (mn < notional)
              | none => false) then
            (false, "notional_exceeds_max_notional")
          else if bal * strategy.max_risk_fraction < notional then
            (false, "notional_exceeds_max_risk_fraction")
          else (true, "ok")
        | _, _, _ => (true, "ok")

/-! ## Specification-side crossing detector, for the refinement claim. -/

/-- Written from the spec's words for the Crossing Detector (§4.2), to be
compared with `detect_rsi_cross` from the source: at least two samples
required; "down": previous sample > level and current sample ≤ level;
"up": previous sample < level and current sample ≥ level; any other
direction false. -/
def detectCross_specModel (series : List ℚ) (level : ℚ) (direction : String) : Bool :=
  match series.reverse with
  | current :: previous :: _ =>
    if direction = "up" then decide (previous < level) && decide (level ≤ current)
    else if direction = "down" then decide (level < previous) && decide (current ≤ level)
    else false
  | _ => false


/-! ## Concrete inputs used by witnesses and counterexamples. -/

/-- Scenario A: the RSI(6) of the close series 100, 101, 100, 99 crosses the
long entry level 35 downward at the last bar. -/
def cfgA : RSIConfig :=
  ⟨"rsi_scale_in", 6, 35, [30, 25, 20, 15], 65, [70, 75, 80, 85], 4, 4⟩

/-- A flat bar whose four prices all equal `c`. -/
def mkBar (c : ℚ) : Bar := ⟨c, c, c, c⟩

/-- Scenario A price window. -/
def dataA : List Bar := [mkBar 100, mkBar 101, mkBar 100, mkBar 99]

/-- An open LONG position of the strategy carrying exactly one ENTRY order
(the freshly opened initial position, scale count 0). -/
def posA : Position :=
  ⟨"ETH/USDT", Direction.LONG, 1 / 100, "rsi_scale_in", PositionStatus.ACTIVE,
    [⟨OrderType.ENTRY⟩]⟩

/-- A concrete risk-sizing oracle returning one unit at every price. -/
def sizerOne : ℚ → ℚ := fun _ => 1

/-- Scenario B: RSI(2) of the close series 10, 11, 10.3, 9.3 moves from
1000/31 (≈32.3, between the scale level 30 and the entry level 35) down to
1000/121 (≈8.3), so the first scale-in level 30 is crossed downward while
the entry level 35 is not. -/
def cfgB : RSIConfig :=
  ⟨"rsi_scale_in", 2, 35, [30, 25, 20, 15], 65, [70, 75, 80, 85], 4, 4⟩

/-- Scenario B price window. -/
def dataB : List Bar := [mkBar 10, mkBar 11, mkBar (103 / 10), mkBar (93 / 10)]

/-- Shared concrete validator inputs: an enabled, non-dry strategy with an
absolute notional cap of 50 and the default risk fraction. -/
def flagsC : LiveParams := ⟨true, false, 2 / 100, some 50, none⟩

/-- A disabled strategy (the constructor defaults). -/
def flagsOff : LiveParams := ⟨false, true, 2 / 100, none, none⟩

/-- An enabled strategy still in dry-run mode. -/
def flagsDry : LiveParams := ⟨true, true, 2 / 100, none, none⟩

/-- A concrete ENTRY signal with notional 10 × 10 = 100. -/
def sigC : Signal := Signal.entry Direction.LONG 10 10 [] [] "s" []

/-- A context whose balance key is present but exactly 0 (falsy). -/
def tcC : TradingContext := ⟨none, none, some 0⟩

/-- A context whose available balance is 0 (falsy) and whose balance key is
absent: the Python `or` chain yields None. -/
def tcD : TradingContext := ⟨none, some 0, none⟩

/-- A context with an available balance of 1000. -/
def tcE : TradingContext := ⟨none, some 1000, none⟩

/-- A condition that passes and leaves the context unchanged. -/
def condPass : Condition := fun _ ctx => CondResult.returns true ctx

/-- A condition that raises. -/
def condRaise : Condition := fun _ _ => CondResult.raises

/-- A condition that returns a falsy value. -/
def condFail : Condition := fun _ ctx => CondResult.returns false ctx


/-! ## Lemmas about the crossing detector. -/

lemma detect_rsi_cross_concat (xs : List (Option ℚ)) (p c : Option ℚ)
    (level : ℚ) (direction : String) :
    detect_rsi_cross (xs ++ [p, c]) level direction =
      if direction = "down" then nanGt p level && nanLe c level
      else if direction = "up" then nanLt p level && nanGe c level
      else false := by
  have h1 : xs ++ [p, c] = (xs ++ [p]) ++ [c] := by simp
  have hlen : ¬ (xs ++ [p, c]).length < 2 := by simp
  unfold detect_rsi_cross lastVal prevVal
  rw [if_neg hlen, h1, List.dropLast_concat, List.getLast?_concat, List.getLast?_concat]
  rfl

lemma detect_rsi_cross_short (s : List (Option ℚ)) (level : ℚ) (direction : String)
    (h : s.length < 2) : detect_rsi_cross s level direction = false := by
  unfold detect_rsi_cross
  rw [if_pos h]

lemma detect_rsi_cross_other (s : List (Option ℚ)) (level : ℚ) (direction : String)
    (h1 : direction ≠ "down") (h2 : direction ≠ "up") :
    detect_rsi_cross s level direction = false := by
  simp [detect_rsi_cross, h1, h2]

/-- C4: `detect_rsi_cross` returns false with fewer than two samples, agrees
with the spec-side detector on numeric series, and returns false for any
direction other than "down"/"up". -/
theorem detect_rsi_cross_matches_spec (s : List (Option ℚ)) (q : List ℚ)
    (level : ℚ) (direction : String) :
    (s.length < 2 → detect_rsi_cross s level direction = false) ∧
    detect_rsi_cross (q.map some) level direction = detectCross_specModel q level direction ∧
    (direction ≠ "down" → direction ≠ "up" → detect_rsi_cross s level direction = false) := by
  refine ⟨fun h => detect_rsi_cross_short s level direction h, ?_,
    fun h1 h2 => detect_rsi_cross_other s level direction h1 h2⟩
  rcases hr : q.reverse with _ | ⟨c, tl⟩
  · have hq : q = [] := by simpa using congrArg List.reverse hr
    subst hq
    simp [detectCross_specModel, detect_rsi_cross_short]
  · rcases tl with _ | ⟨p, rest⟩
    · have hq : q = [c] := by simpa using congrArg List.reverse hr
      subst hq
      simp [detectCross_specModel, detect_rsi_cross_short]
    · have hq : q = rest.reverse ++ [p, c] := by simpa using congrArg List.reverse hr
      subst hq
      rw [List.map_append]
      rw [show (([p, c]).map some) = [some p, some c] from rfl]
      rw [detect_rsi_cross_concat]
      simp only [detectCross_specModel, hr]
      by_cases hd : direction = "down"
      · subst hd
        simp [nanGt, nanLe, show ("down" : String) ≠ "up" from by decide]
      · by_cases hu : direction = "up"
        · subst hu
          simp [nanLt, nanGe, show ("up" : String) ≠ "down" from by decide]
        · simp [hd, hu]

/-- C5: the detector is antisymmetric: a "down" crossing excludes an "up"
crossing of the same level on the same series, and vice versa. -/
theorem detect_rsi_cross_antisymm (s : List (Option ℚ)) (level : ℚ) :
    (detect_rsi_cross s level "down" = true → detect_rsi_cross s level "up" = false) ∧
    (detect_rsi_cross s level "up" = true → detect_rsi_cross s level "down" = false) := by
  by_cases hl : s.length < 2
  · rw [detect_rsi_cross_short s level "down" hl, detect_rsi_cross_short s level "up" hl]
    simp
  · have hd : detect_rsi_cross s level "down" = (nanGt (prevVal s) level && nanLe (lastVal s) level) := by
      unfold detect_rsi_cross
      rw [if_neg hl]
      rfl
    have hu : detect_rsi_cross s level "up" = (nanLt (prevVal s) level && nanGe (lastVal s) level) := by
      unfold detect_rsi_cross
      rw [if_neg hl]
      rfl
    rw [hd, hu]
    rcases hp : prevVal s with _ | v
    · simp [nanGt, nanLt]
    · simp only [nanGt, nanLt, Bool.and_eq_true, decide_eq_true_eq]
      constructor
      · rintro ⟨h1, -⟩
        simp [not_lt.mpr (le_of_lt h1)]
      · rintro ⟨h1, -⟩
        simp [not_lt.mpr (le_of_lt h1)]

/-- Witness for C4 at concrete inputs, discharging its hypotheses: the spec's
scenario-A series crossing down through 35. -/
theorem detect_rsi_cross_matches_spec_witness :
    detect_rsi_cross [some (40 : ℚ)] 35 "sideways" = false ∧
    detect_rsi_cross ([40, 38, 36, 34].map some) (35 : ℚ) "down" =
      detectCross_specModel [40, 38, 36, 34] 35 "down" ∧
    detectCross_specModel [40, 38, 36, 34] (35 : ℚ) "down" = true ∧
    detect_rsi_cross [some (40 : ℚ), some 30] 35 "sideways" = false := by
  refine ⟨(detect_rsi_cross_matches_spec [some 40] [] 35 "sideways").1 (by norm_num),
    (detect_rsi_cross_matches_spec [some 40] [40, 38, 36, 34] 35 "down").2.1, ?_,
    (detect_rsi_cross_matches_spec [some (40 : ℚ), some 30] [] 35 "sideways").2.2
      (by decide) (by decide)⟩
  norm_num [detectCross_specModel, show ("down" : String) ≠ "up" from by decide]

/-- Witness for C5 at concrete inputs, discharging its hypotheses. -/
theorem detect_rsi_cross_antisymm_witness :
    detect_rsi_cross ([(36 : ℚ), 34].map some) 35 "up" = false ∧
    detect_rsi_cross ([(64 : ℚ), 66].map some) 65 "down" = false := by
  constructor
  · exact (detect_rsi_cross_antisymm ([(36 : ℚ), 34].map some) 35).1 (by
      norm_num [detect_rsi_cross, lastVal, prevVal, nanGt, nanLe])
  · exact (detect_rsi_cross_antisymm ([(64 : ℚ), 66].map some) 65).2 (by
      norm_num [detect_rsi_cross, lastVal, prevVal, nanLt, nanGe,
        show ("up" : String) ≠ "down" from by decide])

/-! ## Lemmas about the RSI strategy run function. -/

lemma metaLookup_no_signal (name k : String) :
    (Signal.no_signal name).metaLookup k = none := rfl

lemma metaLookup_close_entry_type (name : String) (r : ℚ) :
    (Signal.close name [("rsi", MetaVal.num r)]).metaLookup "entry_type" = none := rfl

lemma metaLookup_initial_entry_type (d : Direction) (p v r : ℚ) (name : String) :
    (Signal.entry d p v [] [] name
      [("rsi", MetaVal.num r), ("scale_count", MetaVal.nat 0),
       ("entry_type", MetaVal.str "initial")]).metaLookup "entry_type" =
      some (MetaVal.str "initial") := rfl

lemma metaLookup_mkScaleIn_entry_type (cfg : RSIConfig) (d : Direction)
    (r p bv : ℚ) (n : ℕ) :
    (mkScaleInSignal cfg d r p bv n).metaLookup "entry_type" =
      some (MetaVal.str "scale_in") := rfl

lemma metaLookup_mkScaleIn_scale_count (cfg : RSIConfig) (d : Direction)
    (r p bv : ℚ) (n : ℕ) :
    (mkScaleInSignal cfg d r p bv n).metaLookup "scale_count" =
      some (MetaVal.nat (n + 1)) := rfl

lemma metaLookup_mkScaleIn_rsi (cfg : RSIConfig) (d : Direction)
    (r p bv : ℚ) (n : ℕ) :
    (mkScaleInSignal cfg d r p bv n).metaLookup "rsi" = some (MetaVal.num r) := rfl

lemma metaLookup_mkScaleIn_multiplier (cfg : RSIConfig) (d : Direction)
    (r p bv : ℚ) (n : ℕ) :
    (mkScaleInSignal cfg d r p bv n).metaLookup "multiplier" =
      some (MetaVal.nat (2 ^ (n + 1))) := rfl

lemma mkScaleIn_price (cfg : RSIConfig) (d : Direction) (r p bv : ℚ) (n : ℕ) :
    (mkScaleInSignal cfg d r p bv n).price = some p := rfl

lemma mkScaleIn_volume (cfg : RSIConfig) (d : Direction) (r p bv : ℚ) (n : ℕ) :
    (mkScaleInSignal cfg d r p bv n).volume = some (bv * ((2 ^ (n + 1) : ℕ) : ℚ)) := rfl

lemma mkScaleIn_direction (cfg : RSIConfig) (d : Direction) (r p bv : ℚ) (n : ℕ) :
    (mkScaleInSignal cfg d r p bv n).direction = some d := rfl

lemma initialEntryCheck_some (cfg : RSIConfig) (sizer : ℚ → ℚ) (rsi : List (Option ℚ))
    (r p : ℚ) (s : Signal) (h : initialEntryCheck cfg sizer rsi r p = some s) :
    s = Signal.entry Direction.LONG p (sizer p) [] [] cfg.name
        [("rsi", MetaVal.num r), ("scale_count", MetaVal.nat 0),
         ("entry_type", MetaVal.str "initial")] ∨
    s = Signal.entry Direction.SHORT p (sizer p) [] [] cfg.name
        [("rsi", MetaVal.num r), ("scale_count", MetaVal.nat 0),
         ("entry_type", MetaVal.str "initial")] := by
  unfold initialEntryCheck at h
  split at h
  · exact Or.inl (Option.some.inj h).symm
  · split at h
    · exact Or.inr (Option.some.inj h).symm
    · exact absurd h (by simp)

lemma scaleInSearch_some (cfg : RSIConfig) (sizer : ℚ → ℚ) (rsi : List (Option ℚ))
    (r p : ℚ) (n : ℕ) (s : Signal) (ps : List Position)
    (h : scaleInSearch cfg sizer rsi r p n ps = some s) :
    (s = mkScaleInSignal cfg Direction.LONG r p (sizer p) n ∧
      n < cfg.long_scale_levels.length) ∨
    (s = mkScaleInSignal cfg Direction.SHORT r p (sizer p) n ∧
      n < cfg.short_scale_levels.length) := by
  induction ps with
  | nil => simp [scaleInSearch] at h
  | cons pos rest ih =>
    rw [scaleInSearch] at h
    split at h
    · exact ih h
    · split at h
      · -- LONG
        split at h
        · rename_i scale_level heq
          split at h
          · exact Or.inl ⟨(Option.some.inj h).symm, (List.getElem?_eq_some.mp heq).1⟩
          · exact ih h
        · exact ih h
      · -- SHORT
        split at h
        · rename_i scale_level heq
          split at h
          · exact Or.inr ⟨(Option.some.inj h).symm, (List.getElem?_eq_some.mp heq).1⟩
          · exact ih h
        · exact ih h

lemma run_shape (cfg : RSIConfig) (sizer : ℚ → ℚ) (data : List Bar)
    (positions : List Position) :
    run cfg sizer data positions = Signal.no_signal cfg.name ∨
    (∃ r, run cfg sizer data positions = Signal.close cfg.name [("rsi", MetaVal.num r)]) ∨
    ((positions.isEmpty || get_position_scale_count cfg.name positions == 0) = true ∧
      ∃ d r p, run cfg sizer data positions = Signal.entry d p (sizer p) [] [] cfg.name
        [("rsi", MetaVal.num r), ("scale_count", MetaVal.nat 0),
         ("entry_type", MetaVal.str "initial")]) ∨
    (get_position_scale_count cfg.name positions < cfg.max_scale_ins ∧
      ∃ rsi r p, scaleInSearch cfg sizer rsi r p
          (get_position_scale_count cfg.name positions) positions =
          some (run cfg sizer data positions)) := by
  unfold run
  dsimp only
  split
  · exact Or.inl rfl
  · split
    · exact Or.inl rfl
    · exact Or.inl rfl
    · rename_i current_rsi hcur
      split
      · exact Or.inl rfl
      · rename_i entry_price hep
        split
        · exact Or.inr (Or.inl ⟨current_rsi, rfl⟩)
        · split
          · rename_i s hsome
            split at hsome
            · rename_i hguard
              rcases initialEntryCheck_some _ _ _ _ _ _ hsome with hs | hs
              · exact Or.inr (Or.inr (Or.inl ⟨hguard, Direction.LONG, current_rsi, entry_price, hs ▸ rfl⟩))
              · exact Or.inr (Or.inr (Or.inl ⟨hguard, Direction.SHORT, current_rsi, entry_price, hs ▸ rfl⟩))
            · exact absurd hsome (by simp)
          · split
            · rename_i hguard
              split
              · rename_i s hsearch
                refine Or.inr (Or.inr (Or.inr ⟨?_, _, current_rsi, entry_price, hsearch⟩))
                have := (Bool.and_eq_true _ _).mp hguard
                exact of_decide_eq_true this.2
              · exact Or.inl rfl
            · exact Or.inl rfl

/-- C1 (amended): `run` emits an initial-entry ENTRY signal only when the
positions list is empty or the computed scale count is 0 — which includes
the case of an open position from this strategy carrying at most one
ENTRY order, so Flat is not required. -/
theorem run_initial_entry_only_when_scale_count_zero (cfg : RSIConfig)
    (sizer : ℚ → ℚ) (data : List Bar) (positions : List Position)
    (h : (run cfg sizer data positions).metaLookup "entry_type" =
      some (MetaVal.str "initial")) :
    positions = [] ∨ get_position_scale_count cfg.name positions = 0 := by
  rcases run_shape cfg sizer data positions with hs | ⟨r, hs⟩ | ⟨hguard, d, r, p, hs⟩ |
    ⟨hbound, rsi, r, p, hs⟩
  · rw [hs, metaLookup_no_signal] at h
    exact absurd h (by simp)
  · rw [hs, metaLookup_close_entry_type] at h
    exact absurd h (by simp)
  · rcases Bool.or_eq_true _ _ |>.mp hguard with he | he
    · exact Or.inl (List.isEmpty_iff.mp he)
    · exact Or.inr (by simpa using he)
  · rcases scaleInSearch_some _ _ _ _ _ _ _ _ hs with ⟨hm, -⟩ | ⟨hm, -⟩ <;>
      rw [hm, metaLookup_mkScaleIn_entry_type] at h <;> exact absurd h (by decide)

lemma runA_eval : run cfgA sizerOne dataA [posA] =
    Signal.entry Direction.LONG 99 1 [] [] "rsi_scale_in"
      [("rsi", MetaVal.num (2500 / 109)), ("scale_count", MetaVal.nat 0),
       ("entry_type", MetaVal.str "initial")] := by
  norm_num [run, cfgA, dataA, posA, sizerOne, mkBar, calculate_rsi, gainsOf, lossesOf, diffs,
    ewm, ewmFrom, rsiPoint, detect_rsi_cross, lastVal, prevVal, nanGt, nanLe, nanLt, nanGe,
    should_close_position, closeCheck, get_position_scale_count, countEntryOrders,
    initialEntryCheck, scaleInSearch, mkScaleInSignal, Signal.metaLookup, Signal.entry,
    Signal.close, Signal.no_signal, List.lookup, List.find?, List.any, List.zip, List.zipWith]

/-- C1 counterexample: with a LONG position of this strategy open (one ENTRY
order, i.e. Scaling state with scale count 0), a downward crossing of the
long entry level still produces an initial ENTRY signal, refuting
"initial entry only from Flat". -/
theorem run_initial_entry_despite_open_position :
    posA.source = cfgA.name ∧ countEntryOrders posA = 1 ∧
    (run cfgA sizerOne dataA [posA]).metaLookup "entry_type" =
      some (MetaVal.str "initial") ∧
    (run cfgA sizerOne dataA [posA]).signal_type = SignalType.ENTRY := by
  refine ⟨rfl, rfl, ?_, ?_⟩ <;> rw [runA_eval] <;> rfl

/-- Witness for the amended C1 theorem at scenario A, discharging its
hypothesis there. -/
theorem run_initial_entry_only_when_scale_count_zero_witness :
    [posA] = ([] : List Position) ∨ get_position_scale_count cfgA.name [posA] = 0 :=
  run_initial_entry_only_when_scale_count_zero cfgA sizerOne dataA [posA]
    (by rw [runA_eval]; rfl)

/-- C2 (amended): every scale-in ENTRY emitted from state Scaling(direction, n)
records in its metadata the one-based scale-in number n + 1 (key
`scale_count`), together with the oscillator value and the multiplier. -/
theorem run_scale_in_metadata_one_based (cfg : RSIConfig) (sizer : ℚ → ℚ)
    (data : List Bar) (positions : List Position)
    (h : (run cfg sizer data positions).metaLookup "entry_type" =
      some (MetaVal.str "scale_in")) :
    (run cfg sizer data positions).metaLookup "scale_count" =
      some (MetaVal.nat (get_position_scale_count cfg.name positions + 1)) ∧
    (∃ r, (run cfg sizer data positions).metaLookup "rsi" = some (MetaVal.num r)) ∧
    (run cfg sizer data positions).metaLookup "multiplier" =
      some (MetaVal.nat (2 ^ (get_position_scale_count cfg.name positions + 1))) := by
  rcases run_shape cfg sizer data positions with hs | ⟨r, hs⟩ | ⟨hguard, d, r, p, hs⟩ |
    ⟨hbound, rsi, r, p, hs⟩
  · rw [hs, metaLookup_no_signal] at h
    exact absurd h (by simp)
  · rw [hs, metaLookup_close_entry_type] at h
    exact absurd h (by simp)
  · rw [hs, metaLookup_initial_entry_type] at h
    exact absurd h (by decide)
  · rcases scaleInSearch_some _ _ _ _ _ _ _ _ hs with ⟨hm, -⟩ | ⟨hm, -⟩ <;>
      rw [hm] <;>
      exact ⟨metaLookup_mkScaleIn_scale_count _ _ _ _ _ _,
        ⟨r, metaLookup_mkScaleIn_rsi _ _ _ _ _ _⟩,
        metaLookup_mkScaleIn_multiplier _ _ _ _ _ _⟩

lemma runB_eval : run cfgB sizerOne dataB [posA] =
    Signal.entry Direction.LONG (93 / 10) 2 [] [] "rsi_scale_in"
      [("rsi", MetaVal.num (1000 / 121)), ("scale_count", MetaVal.nat 1),
       ("entry_type", MetaVal.str "scale_in"), ("multiplier", MetaVal.nat 2)] := by
  norm_num [run, cfgB, dataB, posA, sizerOne, mkBar, calculate_rsi, gainsOf, lossesOf, diffs,
    ewm, ewmFrom, rsiPoint, detect_rsi_cross, lastVal, prevVal, nanGt, nanLe, nanLt, nanGe,
    should_close_position, closeCheck, get_position_scale_count, countEntryOrders,
    initialEntryCheck, scaleInSearch, mkScaleInSignal, Signal.metaLookup, Signal.entry,
    Signal.close, Signal.no_signal, List.lookup, List.find?, List.any, List.zip, List.zipWith]

/-- C2 counterexample: the scale-in emitted from Scaling(LONG, 0) in scenario
B records `scale_count = 1` in its metadata, not the zero-based index 0. -/
theorem run_scale_in_metadata_not_zero_based :
    get_position_scale_count cfgB.name [posA] = 0 ∧
    (run cfgB sizerOne dataB [posA]).metaLookup "entry_type" =
      some (MetaVal.str "scale_in") ∧
    (run cfgB sizerOne dataB [posA]).metaLookup "scale_count" =
      some (MetaVal.nat 1) ∧
    MetaVal.nat 1 ≠ MetaVal.nat 0 := by
  refine ⟨rfl, ?_, ?_, by decide⟩ <;> rw [runB_eval] <;> rfl

/-- Witness for the amended C2 theorem at scenario B, discharging its
hypothesis there. -/
theorem run_scale_in_metadata_one_based_witness :
    (run cfgB sizerOne dataB [posA]).metaLookup "scale_count" =
      some (MetaVal.nat (get_position_scale_count cfgB.name [posA] + 1)) ∧
    (∃ r, (run cfgB sizerOne dataB [posA]).metaLookup "rsi" = some (MetaVal.num r)) ∧
    (run cfgB sizerOne dataB [posA]).metaLookup "multiplier" =
      some (MetaVal.nat (2 ^ (get_position_scale_count cfgB.name [posA] + 1))) :=
  run_scale_in_metadata_one_based cfgB sizerOne dataB [posA] (by rw [runB_eval]; rfl)

/-- C3: every scale-in ENTRY emitted from state Scaling(direction, n)
satisfies n < maxScaleIns and n < the length of that direction's ladder,
and its volume is the base risk-sized volume times exactly 2 ^ (n + 1). -/
theorem run_scale_in_preconditions_and_doubling (cfg : RSIConfig) (sizer : ℚ → ℚ)
    (data : List Bar) (positions : List Position)
    (h : (run cfg sizer data positions).metaLookup "entry_type" =
      some (MetaVal.str "scale_in")) :
    get_position_scale_count cfg.name positions < cfg.max_scale_ins ∧
    ((run cfg sizer data positions).direction = some Direction.LONG →
      get_position_scale_count cfg.name positions < cfg.long_scale_levels.length) ∧
    ((run cfg sizer data positions).direction = some Direction.SHORT →
      get_position_scale_count cfg.name positions < cfg.short_scale_levels.length) ∧
    ∃ p, (run cfg sizer data positions).price = some p ∧
      (run cfg sizer data positions).volume =
        some (sizer p *
          (2 : ℚ) ^ (get_position_scale_count cfg.name positions + 1)) := by
  rcases run_shape cfg sizer data positions with hs | ⟨r, hs⟩ | ⟨hguard, d, r, p, hs⟩ |
    ⟨hbound, rsi, r, p, hs⟩
  · rw [hs, metaLookup_no_signal] at h
    exact absurd h (by simp)
  · rw [hs, metaLookup_close_entry_type] at h
    exact absurd h (by simp)
  · rw [hs, metaLookup_initial_entry_type] at h
    exact absurd h (by decide)
  · have hcast : (((2 ^ (get_position_scale_count cfg.name positions + 1) : ℕ)) : ℚ) =
        (2 : ℚ) ^ (get_position_scale_count cfg.name positions + 1) := by
      push_cast
      ring
    rcases scaleInSearch_some _ _ _ _ _ _ _ _ hs with ⟨hm, hlt⟩ | ⟨hm, hlt⟩
    · refine ⟨hbound, fun _ => hlt, fun hdir => ?_, p, ?_, ?_⟩
      · rw [hm, mkScaleIn_direction] at hdir
        exact absurd hdir (by simp)
      · rw [hm, mkScaleIn_price]
      · rw [hm, mkScaleIn_volume, hcast]
    · refine ⟨hbound, fun hdir => ?_, fun _ => hlt, p, ?_, ?_⟩
      · rw [hm, mkScaleIn_direction] at hdir
        exact absurd hdir (by simp)
      · rw [hm, mkScaleIn_price]
      · rw [hm, mkScaleIn_volume, hcast]

/-- Witness for C3 at scenario B, discharging its hypothesis there. -/
theorem run_scale_in_preconditions_and_doubling_witness :
    get_position_scale_count cfgB.name [posA] < cfgB.max_scale_ins ∧
    ∃ p, (run cfgB sizerOne dataB [posA]).price = some p ∧
      (run cfgB sizerOne dataB [posA]).volume =
        some (sizerOne p * (2 : ℚ) ^ (get_position_scale_count cfgB.name [posA] + 1)) := by
  have h := run_scale_in_preconditions_and_doubling cfgB sizerOne dataB [posA]
    (by rw [runB_eval]; rfl)
  exact ⟨h.1, h.2.2.2⟩

/-! ## Theorems about the live-execution validator. -/

/-- C6: `can_execute` applies its checks in order — a disabled strategy is
always rejected as `strategy_live_disabled` whatever the other inputs, an
enabled dry-run strategy always as `dry_run_enabled`, and when both
notional caps are violated the absolute `max_notional` reason wins over
the relative risk-fraction reason. -/
theorem can_execute_check_order (flags : LiveParams) (sig : Signal)
    (positions : List Position) (tc : Option TradingContext)
    (c : TradingContext) (bal p v mn : ℚ) :
    (flags.live_enabled = false →
      can_execute flags sig positions tc = (false, "strategy_live_disabled")) ∧
    (flags.live_enabled = true → flags.dry_run = true →
      can_execute flags sig positions tc = (false, "dry_run_enabled")) ∧
    (flags.live_enabled = true → flags.dry_run = false →
      symbolReject flags (some c) = none → effBalance c = some bal →
      sig.price = some p → sig.volume = some v → flags.max_notional = some mn →
      mn < p * v → bal * flags.max_risk_fraction < p * v →
      can_execute flags sig positions (some c) =
        (false, "notional_exceeds_max_notional")) := by
  refine ⟨fun h1 => ?_, fun h1 h2 => ?_, fun h1 h2 hsym hbal hp hv hmn hcap hrisk => ?_⟩
  · simp [can_execute, h1]
  · simp [can_execute, h1, h2]
  · simp [can_execute, h1, h2, hsym, hbal, hp, hv, hmn, hcap, hrisk]

/-- Witness for C6, applying it at concrete inputs and discharging each
hypothesis: both notional caps are violated (100 > 50 and 100 > 20) and the
absolute-cap reason wins. -/
theorem can_execute_check_order_witness :
    can_execute flagsOff sigC [] none = (false, "strategy_live_disabled") ∧
    can_execute flagsDry sigC [] none = (false, "dry_run_enabled") ∧
    can_execute flagsC sigC [] (some tcE) = (false, "notional_exceeds_max_notional") :=
  ⟨(can_execute_check_order flagsOff sigC [] none tcE 1000 10 10 50).1 rfl,
   (can_execute_check_order flagsDry sigC [] none tcE 1000 10 10 50).2.1 rfl rfl,
   (can_execute_check_order flagsC sigC [] (some tcE) tcE 1000 10 10 50).2.2 rfl rfl rfl rfl
     rfl rfl rfl (by norm_num) (by norm_num [flagsC])⟩

/-- C10 counterexample: with no truthy balance in the context (available
balance absent, balance key exactly 0) the notional step is not skipped —
`can_execute` rejects with `notional_exceeds_max_notional` instead of
returning (True, 'ok'). -/
theorem can_execute_zero_balance_not_skipped :
    tcC.available_balance = none ∧ tcC.balance = some 0 ∧
    flagsC.live_enabled = true ∧ flagsC.dry_run = false ∧
    can_execute flagsC sigC [] (some tcC) = (false, "notional_exceeds_max_notional") ∧
    can_execute flagsC sigC [] (some tcC) ≠ (true, "ok") := by
  have h : can_execute flagsC sigC [] (some tcC) =
      (false, "notional_exceeds_max_notional") := by
    norm_num [can_execute, flagsC, sigC, tcC, effBalance, symbolReject, Signal.entry]
  exact ⟨rfl, rfl, rfl, rfl, h, by rw [h]; decide⟩

/-- C10 (amended): a falsy available balance falls back to the balance key,
and the notional step is skipped exactly when the resulting value is None
(no context, both keys absent, or a falsy available balance with the
balance key absent) — then `can_execute` accepts with 'ok' even when a
configured `max_notional` is exceeded; a present balance of exactly 0 does
not skip the step. -/
theorem can_execute_skips_notional_without_balance (flags : LiveParams)
    (sig : Signal) (positions : List Position) (tc : Option TradingContext)
    (hl : flags.live_enabled = true) (hd : flags.dry_run = false)
    (hs : symbolReject flags tc = none)
    (hb : tc = none ∨ ∃ c, tc = some c ∧ effBalance c = none) :
    can_execute flags sig positions tc = (true, "ok") ∧
    (∀ d a, d.available_balance = some a → a = 0 → effBalance d = d.balance) := by
  refine ⟨?_, fun d a h1 h2 => by simp [effBalance, h1, h2]⟩
  rcases hb with rfl | ⟨c, rfl, hc⟩
  · simp [can_execute, hl, hd, hs]
  · simp [can_execute, hl, hd, hs, hc]

/-- Witness for the amended C10 theorem: available balance 0 falls through to
the absent balance key, so a notional of 100 passes a cap of 50. -/
theorem can_execute_skips_notional_without_balance_witness :
    can_execute flagsC sigC [] (some tcD) = (true, "ok") ∧
    effBalance tcD = none :=
  ⟨(can_execute_skips_notional_without_balance flagsC sigC [] (some tcD) rfl rfl rfl
      (Or.inr ⟨tcD, rfl, rfl⟩)).1, rfl⟩

/-! ## Theorems about the condition-chain engine. -/

lemma evalConds_append (df : List Bar) (l₁ l₂ : List Condition) (ctx : Ctx) :
    evalConds df (l₁ ++ l₂) ctx =
      (evalConds df l₁ ctx).bind (fun ctx' => evalConds df l₂ ctx') := by
  induction l₁ generalizing ctx with
  | nil => simp [evalConds]
  | cons cond rest ih =>
    simp only [List.cons_append, evalConds]
    cases cond df ctx with
    | raises => rfl
    | returns ok ctx' =>
      cases ok
      · simp
      · simpa using ih ctx'

/-- C7: the condition chain is evaluated in insertion order: if every
condition before `c` passes and `c` raises or returns a falsy value,
`run` returns NO_SIGNAL and the conditions after `c` are irrelevant to
the result (they are never evaluated); no exception escapes — the result
is still a Signal. -/
theorem base_run_short_circuits (name : String) (p : LiveParams) (df : List Bar)
    (positions : List Position) (tc : Option TradingContext)
    (pre : List Condition) (c : Condition) (post post' : List Condition)
    (h : ∃ ctx', evalConds df pre (initCtx positions tc) = some ctx' ∧
      (c df ctx' = CondResult.raises ∨
        ∃ ctx'', c df ctx' = CondResult.returns false ctx'')) :
    base_run name p (pre ++ c :: post) df positions tc = Signal.no_signal name ∧
    base_run name p (pre ++ c :: post) df positions tc =
      base_run name p (pre ++ c :: post') df positions tc := by
  obtain ⟨ctx', hpre, hfail⟩ := h
  have key : ∀ post₀ : List Condition,
      evalConds df (pre ++ c :: post₀) (initCtx positions tc) = none := by
    intro post₀
    rw [evalConds_append, hpre]
    show evalConds df (c :: post₀) ctx' = none
    simp only [evalConds]
    rcases hfail with h1 | ⟨ctx'', h2⟩
    · rw [h1]
    · rw [h2]
      rfl
  unfold base_run
  rw [key post, key post']
  exact ⟨rfl, rfl⟩

/-- Witness for C7: after a passing condition, a raising condition makes the
chain return NO_SIGNAL, independently of what follows it. -/
theorem base_run_short_circuits_witness :
    base_run "s" flagsOff ([condPass] ++ condRaise :: [condFail]) [] [] none =
      Signal.no_signal "s" ∧
    base_run "s" flagsOff ([condPass] ++ condRaise :: [condFail]) [] [] none =
      base_run "s" flagsOff ([condPass] ++ condRaise :: []) [] [] none :=
  base_run_short_circuits "s" flagsOff [] [] none [condPass] condRaise [condFail] []
    ⟨initCtx [] none, rfl, Or.inl rfl⟩

/-- C9: with an empty condition list, `BaseStrategy.run` on a nonempty
window returns an ENTRY signal (not NO_SIGNAL) at the last bar's close,
with direction defaulting to LONG, volume 0, empty take-profit/stop-loss
lists and only the stamped live flags in the metadata. -/
theorem base_run_empty_conditions_entry (name : String) (p : LiveParams)
    (df : List Bar) (positions : List Position) (tc : Option TradingContext)
    (h : df ≠ []) :
    ∃ cl, (df.map Bar.close).getLast? = some cl ∧
      base_run name p [] df positions tc =
        Signal.entry Direction.LONG cl 0 [] [] name (stampLive [] p) ∧
      (base_run name p [] df positions tc).signal_type = SignalType.ENTRY := by
  obtain ⟨cl, hcl⟩ : ∃ cl, (df.map Bar.close).getLast? = some cl := by
    rcases hgl : (df.map Bar.close).getLast? with _ | cl
    · rw [List.getLast?_eq_none_iff] at hgl
      exact absurd (List.map_eq_nil_iff.mp hgl) h
    · exact ⟨cl, rfl⟩
  have hrun : base_run name p [] df positions tc =
      Signal.entry Direction.LONG cl 0 [] [] name (stampLive [] p) := by
    unfold base_run
    rw [show evalConds df [] (initCtx positions tc) = some (initCtx positions tc) from rfl,
      hcl]
    rfl
  exact ⟨cl, hcl, hrun, by rw [hrun]; rfl⟩

/-- Witness for C9 at a one-bar window. -/
theorem base_run_empty_conditions_entry_witness :
    ∃ cl, (([mkBar 5]).map Bar.close).getLast? = some cl ∧
      base_run "s" flagsOff [] [mkBar 5] [] none =
        Signal.entry Direction.LONG cl 0 [] [] "s" (stampLive [] flagsOff) ∧
      (base_run "s" flagsOff [] [mkBar 5] [] none).signal_type = SignalType.ENTRY :=
  base_run_empty_conditions_entry "s" flagsOff [mkBar 5] [] none (by simp)

/-- C8: both `run` functions are deterministic — in this embedding they are
pure functions of the window, the positions and the configuration (the
Python implementations' only side effect is logging), so identical inputs
give identical Signal objects. -/
theorem run_deterministic (cfg cfg' : RSIConfig) (sizer sizer' : ℚ → ℚ)
    (data data' : List Bar) (positions positions' : List Position)
    (name name' : String) (p p' : LiveParams) (conds conds' : List Condition)
    (df df' : List Bar) (ps ps' : List Position) (tc tc' : Option TradingContext)
    (h1 : cfg = cfg') (h2 : sizer = sizer') (h3 : data = data')
    (h4 : positions = positions') (h5 : name = name') (h6 : p = p')
    (h7 : conds = conds') (h8 : df = df') (h9 : ps = ps') (h10 : tc = tc') :
    run cfg sizer data positions = run cfg' sizer' data' positions' ∧
    base_run name p conds df ps tc = base_run name' p' conds' df' ps' tc' := by
  subst h1 h2 h3 h4 h5 h6 h7 h8 h9 h10
  exact ⟨rfl, rfl⟩

/-- Witness for C8 at concrete inputs. -/
theorem run_deterministic_witness :
    run cfgA sizerOne dataA [posA] = run cfgA sizerOne dataA [posA] ∧
    base_run "s" flagsOff [condPass] [mkBar 5] [] none =
      base_run "s" flagsOff [condPass] [mkBar 5] [] none :=
  run_deterministic cfgA cfgA sizerOne sizerOne dataA dataA [posA] [posA]
    "s" "s" flagsOff flagsOff [condPass] [condPass] [mkBar 5] [mkBar 5] [] [] none none
    rfl rfl rfl rfl rfl rfl rfl rfl rfl rfl

end FreeTrading
